import Mathlib

/-!
Verification of the realtime presence/chat gateway
(`backend/app/realtime/socket_server.py` and
`backend/app/utils/student_token.py`).

The module-level mutable dictionaries `_ACTIVE_CLIENTS` (sid -> session)
and `_STUDENT_CONNECTIONS` (enrollment -> set of sids) become an explicit
`State`; every Socket.IO event handler becomes a function from the current
state and the event data to the next state together with the list of
external actions it performs (room joins, emits, persistence calls).
External collaborators (JWT decoding, roster-context resolution, the
classmate check, message persistence) are parameters gathered in
`Collaborators`.  Python strings stay `String`; `.lower()` and `.strip()`
are embedded as character-list operations `strLower` / `strTrim`.
-/

namespace SocketServer

/-- Python `str.lower()` (character-wise lowering). -/
def strLower (s : String) : String := ⟨s.data.map Char.toLower⟩

/-- Python `str.strip()`: drop leading and trailing whitespace. -/
def strTrim (s : String) : String :=
  ⟨((s.data.dropWhile Char.isWhitespace).reverse.dropWhile Char.isWhitespace).reverse⟩

/-- Python truthiness of an `Optional[str]`: `None` and `""` are falsy. -/
def truthy : Option String → Bool
  | none => false
  | some s => s != ""

abbrev Sid := String
abbrev Enrollment := String

/-- The roster context resolved for an enrollment:
a dict with keys `admin_id` (the tenant), `std` (class/standard) and
`division` (possibly `None`). -/
structure Ctx where
  admin_id : String
  std : String
  division : Option String
deriving Repr, DecidableEq

/-- The session payload stored per sid in `_ACTIVE_CLIENTS`. -/
structure Session where
  enrollment : Enrollment
  context : Ctx
deriving Repr, DecidableEq

/-! ### Python dicts and sets

A dict is an association list with pairwise-distinct keys; lookup,
assignment and `pop` act on the first matching key, which coincides with
dict semantics on distinct keys.  A set of sids is a duplicate-free list;
`add` and `discard` mirror `set.add` / `set.discard`. -/

/-- Python `d[k]` / `d.get(k)`. -/
def dget {β : Type} : List (String × β) → String → Option β
  | [], _ => none
  | p :: rest, k => if p.1 = k then some p.2 else dget rest k

/-- Python `d[k] = v`: replace in place if the key is present, else append. -/
def dset {β : Type} : List (String × β) → String → β → List (String × β)
  | [], k, v => [(k, v)]
  | p :: rest, k, v => if p.1 = k then (k, v) :: rest else p :: dset rest k v

/-- Python `d.pop(k, None)` (the remaining dict). -/
def dpop {β : Type} : List (String × β) → String → List (String × β)
  | [], _ => []
  | p :: rest, k => if p.1 = k then rest else p :: dpop rest k

/-- Python `s.add(x)`. -/
def sadd (s : List Sid) (x : Sid) : List Sid :=
  if x ∈ s then s else s ++ [x]

/-- Python `s.discard(x)`. -/
def sdiscard (s : List Sid) (x : Sid) : List Sid :=
  s.filter (fun y => decide (y ≠ x))

/-- The gateway's module-level mutable state. -/
structure State where
  ACTIVE_CLIENTS : List (Sid × Session)
  STUDENT_CONNECTIONS : List (Enrollment × List Sid)
deriving Repr, DecidableEq

/-- Source `_personal_room(admin_id, enrollment_number)`. -/
def _personal_room (admin_id : String) (enrollment_number : String) : String :=
  strLower ("student:" ++ admin_id ++ ":" ++ enrollment_number)

/-- Source `_class_room(context)`: division defaults to `"all"` when missing or
whitespace-only (Python `(context.get("division") or "").strip() or "all"`). -/
def _class_room (context : Ctx) : String :=
  let division :=
    if strTrim (context.division.getD "") = "" then "all"
    else strTrim (context.division.getD "")
  strLower ("class:" ++ context.admin_id ++ ":" ++ context.std ++ ":" ++ division)

/-- The stored message record returned by the persistence collaborator. -/
structure MessageRecord where
  id : Nat
  message : String
deriving Repr, DecidableEq

/-- Schema `SendChatMessageRequest` of the persistence call. -/
structure SendChatMessageRequest where
  peer_enrollment : String
  message : String
  share_metadata : Option String
deriving Repr, DecidableEq

/-- Payloads of the events the gateway emits. -/
inductive Payload where
  | presence (enrollment : Enrollment) (status : String)
  | snapshot (online : List Enrollment)
  | signalData (sender_enrollment : Enrollment) (signal_type : String) (payload : Option String)
  | typingData (sender_enrollment : Enrollment) (typing : Bool)
  | newMessage (message : MessageRecord) (participants : List Enrollment)
deriving Repr, DecidableEq

/-- One observable external action of a handler, in program order. -/
inductive Effect where
  | emit (event : String) (payload : Payload) (room : String) (skip_sid : Option Sid)
  | enter_room (sid : Sid) (room : String)
  | send_chat_message_call (payload : SendChatMessageRequest) (current_context peer_context : Ctx)
deriving Repr, DecidableEq

/-- External collaborators of the gateway. `jwt_decode` returns the
`enrollment_number` claim of a valid token (`none` when the claim is
absent); `ensure_same_classmate` returns the peer context, `none`
standing for the raised `HTTPException`. -/
structure Collaborators where
  jwt_decode : String → Except String (Option String)
  get_roster_context : Enrollment → Except String Ctx
  ensure_same_classmate : Ctx → Enrollment → Option Ctx
  send_chat_message : SendChatMessageRequest → Ctx → Ctx → MessageRecord

/-- Source `decode_student_token` (`backend/app/utils/student_token.py`). -/
def decode_student_token (jwt_decode : String → Except String (Option String))
    (token : String) : Except String Enrollment :=
  if token = "" then Except.error "Missing student token"
  else
    match jwt_decode token with
    | Except.error _ => Except.error "Invalid student token"
    | Except.ok enrollment =>
      if truthy enrollment then Except.ok (enrollment.getD "")
      else Except.error "Invalid student token payload"

/-- Token extraction in `connect`: the query-string token wins; the auth
payload is consulted only when the query token is absent or empty. -/
def extract_token (query_token : Option String) (auth : Option (Option String)) : String :=
  let token := query_token.getD ""
  if token = "" then
    match auth with
    | some auth_dict => auth_dict.getD ""
    | none => token
  else token

/-- Source `_broadcast_presence(context, enrollment, status)`. -/
def _broadcast_presence (context : Ctx) (enrollment : Enrollment) (status : String) : Effect :=
  Effect.emit "presence:update" (Payload.presence enrollment status) (_class_room context) none

/-- The `connect` handler.  On handshake failure it refuses the connection
(`Except.error "unauthorized"`); on success it returns the mutated state and
the actions performed (two room joins and the presence broadcast). -/
def connect (collab : Collaborators) (st : State) (sid : Sid)
    (query_token : Option String) (auth : Option (Option String)) :
    Except String (State × List Effect) :=
  let token := extract_token query_token auth
  match decode_student_token collab.jwt_decode token with
  | Except.error _ => Except.error "unauthorized"
  | Except.ok enrollment =>
    match collab.get_roster_context enrollment with
    | Except.error _ => Except.error "unauthorized"
    | Except.ok context =>
      let session : Session := ⟨enrollment, context⟩
      let active := dset st.ACTIVE_CLIENTS sid session
      let conns :=
        match dget st.STUDENT_CONNECTIONS enrollment with
        | some sids => dset st.STUDENT_CONNECTIONS enrollment (sadd sids sid)
        | none => st.STUDENT_CONNECTIONS ++ [(enrollment, [sid])]
      let personal_room := _personal_room context.admin_id enrollment
      let class_room := _class_room context
      Except.ok (⟨active, conns⟩,
        [Effect.enter_room sid personal_room,
         Effect.enter_room sid class_room,
         _broadcast_presence context enrollment "online"])

/-- The `disconnect` handler. -/
def disconnect (st : State) (sid : Sid) : State × List Effect :=
  match dget st.ACTIVE_CLIENTS sid with
  | none => (st, [])
  | some session =>
    let active := dpop st.ACTIVE_CLIENTS sid
    match dget st.STUDENT_CONNECTIONS session.enrollment with
    | none => (⟨active, st.STUDENT_CONNECTIONS⟩, [])
    | some sid_set =>
      let remaining := sdiscard sid_set sid
      if remaining = [] then
        (⟨active, dpop st.STUDENT_CONNECTIONS session.enrollment⟩,
         [_broadcast_presence session.context session.enrollment "offline"])
      else
        (⟨active, dset st.STUDENT_CONNECTIONS session.enrollment remaining⟩, [])

/-- Data of a `signal` event. -/
structure SignalData where
  peer_enrollment : Option String
  signal_type : Option String
  payload : Option String
deriving Repr, DecidableEq

/-- The `signal` handler. -/
def handle_signal (collab : Collaborators) (st : State) (sid : Sid)
    (data : SignalData) : State × List Effect :=
  match dget st.ACTIVE_CLIENTS sid with
  | none => (st, [])
  | some session =>
    if !truthy data.peer_enrollment || !truthy data.signal_type then (st, [])
    else
      match collab.ensure_same_classmate session.context (data.peer_enrollment.getD "") with
      | none => (st, [])
      | some peer_context =>
        (st,
         [Effect.emit "signal"
            (Payload.signalData session.enrollment (data.signal_type.getD "") data.payload)
            (_personal_room peer_context.admin_id (data.peer_enrollment.getD ""))
            (some sid)])

/-- Data of a `send_message` event. -/
structure SendMessageData where
  peer_enrollment : Option String
  message : Option String
  share_metadata : Option String
deriving Repr, DecidableEq

/-- The `send_message` handler. -/
def handle_send_message (collab : Collaborators) (st : State) (sid : Sid)
    (data : SendMessageData) : State × List Effect :=
  match dget st.ACTIVE_CLIENTS sid with
  | none => (st, [])
  | some session =>
    let current_enrollment := session.enrollment
    let current_context := session.context
    let message_text := strTrim (data.message.getD "")
    if !truthy data.peer_enrollment || message_text = "" then (st, [])
    else
      match collab.ensure_same_classmate current_context (data.peer_enrollment.getD "") with
      | none => (st, [])
      | some peer_context =>
        let payload : SendChatMessageRequest :=
          ⟨data.peer_enrollment.getD "", message_text, data.share_metadata⟩
        let record := collab.send_chat_message payload current_context peer_context
        let broadcast_payload :=
          Payload.newMessage record [current_enrollment, data.peer_enrollment.getD ""]
        let sender_room := _personal_room current_context.admin_id current_enrollment
        let receiver_room := _personal_room current_context.admin_id (data.peer_enrollment.getD "")
        (st,
         [Effect.send_chat_message_call payload current_context peer_context,
          Effect.emit "message:new" broadcast_payload sender_room none,
          Effect.emit "message:new" broadcast_payload receiver_room none])

/-- The `presence:request` handler. -/
def handle_presence_request (st : State) (sid : Sid) : State × List Effect :=
  match dget st.ACTIVE_CLIENTS sid with
  | none => (st, [])
  | some session =>
    let online := (st.STUDENT_CONNECTIONS.filter (fun p => !p.2.isEmpty)).map Prod.fst
    (st,
     [Effect.emit "presence:snapshot" (Payload.snapshot online) sid none,
      _broadcast_presence session.context session.enrollment "online"])

/-- The exported `broadcast_chat_message` primitive. -/
def broadcast_chat_message (admin_id : String) (enrollments : List String)
    (payload : Payload) (skip_sid : Option Sid) : List Effect :=
  let unique_enrollments := ((enrollments.filter (fun e => decide (e ≠ ""))).map strLower).dedup
  unique_enrollments.map (fun enrollment =>
    Effect.emit "message:new" payload (_personal_room admin_id enrollment) skip_sid)

/-- The list the `presence:request` handler computes: enrollments whose
tracked sid set is non-empty. -/
def online_snapshot (st : State) : List Enrollment :=
  (st.STUDENT_CONNECTIONS.filter (fun p => !p.2.isEmpty)).map Prod.fst

/-- The state produced by a successful handshake. -/
def connect_success_state (st : State) (sid : Sid) (enrollment : Enrollment)
    (context : Ctx) : State :=
  ⟨dset st.ACTIVE_CLIENTS sid ⟨enrollment, context⟩,
   match dget st.STUDENT_CONNECTIONS enrollment with
   | some sids => dset st.STUDENT_CONNECTIONS enrollment (sadd sids sid)
   | none => st.STUDENT_CONNECTIONS ++ [(enrollment, [sid])]⟩

/-- The actions performed by a successful handshake, in program order. -/
def connect_success_effects (sid : Sid) (enrollment : Enrollment) (context : Ctx) :
    List Effect :=
  [Effect.enter_room sid (_personal_room context.admin_id enrollment),
   Effect.enter_room sid (_class_room context),
   _broadcast_presence context enrollment "online"]

/-! ### The registry/presence consistency invariant

`Inv` states, in a form decidable on concrete states, that
`_STUDENT_CONNECTIONS` and `_ACTIVE_CLIENTS` are consistent dicts: no empty
sid set lingers, every tracked sid belongs to a registered connection of
that enrollment, and every registered connection is tracked under its
enrollment. -/

def Inv (st : State) : Prop :=
  (st.ACTIVE_CLIENTS.map Prod.fst).Nodup ∧
  (st.STUDENT_CONNECTIONS.map Prod.fst).Nodup ∧
  (∀ p ∈ st.STUDENT_CONNECTIONS, p.2 ≠ []) ∧
  (∀ p ∈ st.STUDENT_CONNECTIONS, ∀ s ∈ p.2,
      ∃ q ∈ st.ACTIVE_CLIENTS, q.1 = s ∧ q.2.enrollment = p.1) ∧
  (∀ q ∈ st.ACTIVE_CLIENTS, ∃ p ∈ st.STUDENT_CONNECTIONS, p.1 = q.2.enrollment ∧ q.1 ∈ p.2)

instance (st : State) : Decidable (Inv st) := by
  unfold Inv
  infer_instance

/-- The presence mapping and the connection registry agree on who is
online: an enrollment has a (necessarily non-empty) tracked sid set iff
some registered connection carries it. -/
def OnlineIff (st : State) : Prop :=
  ∀ e : Enrollment,
    (∃ sids, dget st.STUDENT_CONNECTIONS e = some sids ∧ sids ≠ []) ↔
    (∃ sid session, dget st.ACTIVE_CLIENTS sid = some session ∧ session.enrollment = e)

/-! ### Concrete fixtures used by counterexamples and witnesses -/

/-- Roster context of tenant `t1`, class `5`, division `a`. -/
def ctxA : Ctx := ⟨"t1", "5", some "a"⟩

/-- Session of enrollment `st100` in `ctxA`. -/
def sessionA : Session := ⟨"st100", ctxA⟩

/-- Session of enrollment `st200` in `ctxA`. -/
def sessionB : Session := ⟨"st200", ctxA⟩

/-- One live connection `s1` for enrollment `st100`. -/
def stOne : State := ⟨[("s1", sessionA)], [("st100", ["s1"])]⟩

/-- Two live connections `s1`, `s2` for enrollment `st100`. -/
def stTwo : State := ⟨[("s1", sessionA), ("s2", sessionA)], [("st100", ["s1", "s2"])]⟩

/-- Concrete collaborators: token `tokA` belongs to `st100`, token `tokB`
to `st200` (both resolving to `ctxA`), token `tokC` to `st999` whose
roster context cannot be resolved; only `st200` passes the classmate
check; persistence stores the text under id 7. -/
def collabA : Collaborators :=
  ⟨fun t =>
      if t = "tokA" then Except.ok (some "st100")
      else if t = "tokB" then Except.ok (some "st200")
      else if t = "tokC" then Except.ok (some "st999")
      else Except.error "invalid",
   fun e =>
      if e = "st100" then Except.ok ctxA
      else if e = "st200" then Except.ok ctxA
      else Except.error "unknown",
   fun _ peer => if peer = "st200" then some ctxA else none,
   fun req _ _ => ⟨7, req.message⟩⟩

/-! ### Lemmas about the dict and set primitives -/

theorem dget_eq_none_iff {β : Type} (d : List (String × β)) (k : String) :
    dget d k = none ↔ k ∉ d.map Prod.fst := by
  induction d with
  | nil => simp [dget]
  | cons p rest ih =>
    by_cases h : p.1 = k
    · simp [dget, h]
    · simp [dget, h, ih, Ne.symm h]

theorem dget_singleton {β : Type} (k k' : String) (v : β) :
    dget [(k, v)] k' = if k = k' then some v else none := by
  simp [dget]

theorem dget_dset_self {β : Type} (d : List (String × β)) (k : String) (v : β) :
    dget (dset d k v) k = some v := by
  induction d with
  | nil => simp [dget, dset]
  | cons p rest ih =>
    by_cases h : p.1 = k
    · simp [dget, dset, h]
    · simp [dget, dset, h, ih]

theorem dget_dset_ne {β : Type} (d : List (String × β)) (k k' : String) (v : β)
    (h : k' ≠ k) : dget (dset d k v) k' = dget d k' := by
  induction d with
  | nil => simp [dget, dset, Ne.symm h]
  | cons p rest ih =>
    by_cases hp : p.1 = k
    · simp [dget, dset, hp, Ne.symm h]
    · by_cases hp' : p.1 = k'
      · simp [dget, dset, hp, hp', h]
      · simp [dget, dset, hp, hp', ih]

theorem dget_dpop_ne {β : Type} (d : List (String × β)) (k k' : String)
    (h : k' ≠ k) : dget (dpop d k) k' = dget d k' := by
  induction d with
  | nil => simp [dpop]
  | cons p rest ih =>
    by_cases hp : p.1 = k
    · simp [dget, dpop, hp, Ne.symm h, hp ▸ (Ne.symm h)]
    · by_cases hp' : p.1 = k'
      · simp [dget, dpop, hp, hp', h]
      · simp [dget, dpop, hp, hp', ih]

theorem mem_keys_dset {β : Type} (d : List (String × β)) (k x : String) (v : β) :
    x ∈ (dset d k v).map Prod.fst ↔ x ∈ d.map Prod.fst ∨ x = k := by
  induction d with
  | nil => simp [dset]
  | cons p rest ih =>
    by_cases hp : p.1 = k
    · subst hp; by_cases hx : x = p.1 <;> simp [dset, hx]
    · simp [dset, hp, ih]; tauto

theorem mem_keys_dpop {β : Type} (d : List (String × β)) (k x : String)
    (h : x ∈ (dpop d k).map Prod.fst) : x ∈ d.map Prod.fst := by
  induction d with
  | nil => simp [dpop] at h
  | cons p rest ih =>
    by_cases hp : p.1 = k
    · simp only [dpop, if_pos hp] at h
      simp [h]
    · simp only [dpop, if_neg hp, List.map_cons, List.mem_cons] at h
      simp only [List.map_cons, List.mem_cons]
      rcases h with h | h
      · exact Or.inl h
      · exact Or.inr (ih h)

theorem keys_dset_nodup {β : Type} (d : List (String × β)) (k : String) (v : β)
    (h : (d.map Prod.fst).Nodup) : ((dset d k v).map Prod.fst).Nodup := by
  induction d with
  | nil => simp [dset]
  | cons p rest ih =>
    simp only [List.map_cons, List.nodup_cons] at h
    by_cases hp : p.1 = k
    · subst hp; simpa [dset, List.nodup_cons] using h
    · simp only [dset, if_neg hp, List.map_cons, List.nodup_cons]
      refine ⟨?_, ih h.2⟩
      intro hmem
      rcases (mem_keys_dset rest k p.1 v).mp hmem with hm | hm
      · exact h.1 hm
      · exact hp hm

theorem keys_dpop_nodup {β : Type} (d : List (String × β)) (k : String)
    (h : (d.map Prod.fst).Nodup) : ((dpop d k).map Prod.fst).Nodup := by
  induction d with
  | nil => simp [dpop]
  | cons p rest ih =>
    simp only [List.map_cons, List.nodup_cons] at h
    by_cases hp : p.1 = k
    · simpa [dpop, hp] using h.2
    · simp only [dpop, if_neg hp, List.map_cons, List.nodup_cons]
      exact ⟨fun hm => h.1 (mem_keys_dpop rest k p.1 hm), ih h.2⟩

theorem dget_dpop_self {β : Type} (d : List (String × β)) (k : String)
    (h : (d.map Prod.fst).Nodup) : dget (dpop d k) k = none := by
  induction d with
  | nil => simp [dget, dpop]
  | cons p rest ih =>
    simp only [List.map_cons, List.nodup_cons] at h
    by_cases hp : p.1 = k
    · subst hp
      simp only [dpop, if_pos rfl]
      exact (dget_eq_none_iff rest p.1).mpr h.1
    · simp [dget, dpop, hp, ih h.2]

theorem dget_append_singleton_self {β : Type} (d : List (String × β)) (k : String) (v : β)
    (h : dget d k = none) : dget (d ++ [(k, v)]) k = some v := by
  induction d with
  | nil => simp [dget]
  | cons p rest ih =>
    by_cases hp : p.1 = k
    · simp [dget, hp] at h
    · simp only [dget, if_neg hp] at h
      simpa [dget, hp] using ih h

theorem dget_append_singleton_ne {β : Type} (d : List (String × β)) (k k' : String) (v : β)
    (h : k' ≠ k) : dget (d ++ [(k, v)]) k' = dget d k' := by
  induction d with
  | nil => simp [dget, Ne.symm h]
  | cons p rest ih =>
    by_cases hp : p.1 = k'
    · simp [dget, hp]
    · simp [dget, hp, ih]

theorem keys_append_singleton_nodup {β : Type} (d : List (String × β)) (k : String) (v : β)
    (hn : (d.map Prod.fst).Nodup) (h : dget d k = none) :
    ((d ++ [(k, v)]).map Prod.fst).Nodup := by
  have hk : k ∉ d.map Prod.fst := (dget_eq_none_iff d k).mp h
  simp only [List.map_append, List.map_cons, List.map_nil]
  exact List.Nodup.append hn (List.nodup_singleton k)
    (by simpa [List.disjoint_singleton] using hk)

theorem mem_sadd (s : List Sid) (x y : Sid) :
    x ∈ sadd s y ↔ x ∈ s ∨ x = y := by
  by_cases h : y ∈ s
  · simp only [sadd, if_pos h]
    constructor
    · exact Or.inl
    · rintro (hx | rfl) <;> [exact hx; exact h]
  · simp [sadd, if_neg h]

theorem mem_sdiscard (s : List Sid) (x y : Sid) :
    x ∈ sdiscard s y ↔ x ∈ s ∧ x ≠ y := by
  simp [sdiscard, List.mem_filter]

theorem sdiscard_eq_nil_iff (s : List Sid) (y : Sid) :
    sdiscard s y = [] ↔ ∀ x ∈ s, x = y := by
  simp [sdiscard, List.filter_eq_nil_iff]

theorem sadd_ne_nil (s : List Sid) (x : Sid) : sadd s x ≠ [] := by
  by_cases h : x ∈ s
  · simp only [sadd, if_pos h]
    exact List.ne_nil_of_mem h
  · simp [sadd, if_neg h]

theorem dget_eq_some_iff {β : Type} (d : List (String × β))
    (hn : (d.map Prod.fst).Nodup) (k : String) (v : β) :
    dget d k = some v ↔ (k, v) ∈ d := by
  induction d with
  | nil => simp [dget]
  | cons p rest ih =>
    simp only [List.map_cons, List.nodup_cons] at hn
    by_cases hp : p.1 = k
    · subst hp
      rw [dget, if_pos rfl]
      simp only [Option.some.injEq, List.mem_cons]
      constructor
      · rintro rfl; exact Or.inl Prod.mk.eta
      · rintro (h | h)
        · exact (congrArg Prod.snd h).symm
        · exact absurd (List.mem_map_of_mem Prod.fst h) hn.1
    · simp only [dget, if_neg hp, List.mem_cons, ih hn.2]
      constructor
      · exact Or.inr
      · rintro (h | h)
        · exact absurd (congrArg Prod.fst h.symm) hp
        · exact h

/-! ### Pointwise reformulation of the invariant -/

/-- Pointwise consequence of `Inv`: no tracked sid set is empty. -/
theorem inv_sids_ne_nil {st : State} (h : Inv st) {e : Enrollment} {sids : List Sid}
    (hs : dget st.STUDENT_CONNECTIONS e = some sids) : sids ≠ [] :=
  h.2.2.1 (e, sids) ((dget_eq_some_iff _ h.2.1 e sids).mp hs)

/-- Pointwise consequence of `Inv`: a sid is tracked under enrollment `e`
iff it is a registered connection whose session carries `e`. -/
theorem inv_mem_iff {st : State} (h : Inv st) {e : Enrollment} {sids : List Sid}
    (hs : dget st.STUDENT_CONNECTIONS e = some sids) (sid : Sid) :
    sid ∈ sids ↔ ∃ session, dget st.ACTIVE_CLIENTS sid = some session ∧ session.enrollment = e := by
  obtain ⟨hA, hB, _, hD, hE⟩ := h
  constructor
  · intro hmem
    obtain ⟨q, hq, hq1, hq2⟩ := hD (e, sids) ((dget_eq_some_iff _ hB e sids).mp hs) sid hmem
    exact ⟨q.2, by rw [← hq1]; exact (dget_eq_some_iff _ hA q.1 q.2).mpr hq, hq2⟩
  · rintro ⟨session, hse, rfl⟩
    obtain ⟨p, hp, hp1, hp2⟩ := hE (sid, session) ((dget_eq_some_iff _ hA sid session).mp hse)
    have : dget st.STUDENT_CONNECTIONS session.enrollment = some p.2 := by
      rw [← hp1]
      exact (dget_eq_some_iff _ hB p.1 p.2).mpr hp
    rw [hs] at this
    injection this with h2
    exact h2 ▸ hp2

/-- Pointwise consequence of `Inv`: every registered connection is tracked. -/
theorem inv_covered {st : State} (h : Inv st) {sid : Sid} {session : Session}
    (hse : dget st.ACTIVE_CLIENTS sid = some session) :
    ∃ sids, dget st.STUDENT_CONNECTIONS session.enrollment = some sids := by
  obtain ⟨hA, hB, _, _, hE⟩ := h
  obtain ⟨p, hp, hp1, _⟩ := hE (sid, session) ((dget_eq_some_iff _ hA sid session).mp hse)
  exact ⟨p.2, by rw [← hp1]; exact (dget_eq_some_iff _ hB p.1 p.2).mpr hp⟩

/-- Rebuild `Inv` from key-nodup facts and the pointwise conditions. -/
theorem inv_of_pointwise (st : State)
    (hA : (st.ACTIVE_CLIENTS.map Prod.fst).Nodup)
    (hB : (st.STUDENT_CONNECTIONS.map Prod.fst).Nodup)
    (h3 : ∀ e sids, dget st.STUDENT_CONNECTIONS e = some sids → sids ≠ [])
    (h4 : ∀ e sids, dget st.STUDENT_CONNECTIONS e = some sids →
      ∀ sid ∈ sids, ∃ session, dget st.ACTIVE_CLIENTS sid = some session ∧ session.enrollment = e)
    (h5 : ∀ sid session, dget st.ACTIVE_CLIENTS sid = some session →
      ∃ sids, dget st.STUDENT_CONNECTIONS session.enrollment = some sids ∧ sid ∈ sids) :
    Inv st := by
  refine ⟨hA, hB, ?_, ?_, ?_⟩
  · intro p hp
    exact h3 p.1 p.2 ((dget_eq_some_iff _ hB p.1 p.2).mpr hp)
  · intro p hp s hs
    obtain ⟨session, hse, hen⟩ := h4 p.1 p.2 ((dget_eq_some_iff _ hB p.1 p.2).mpr hp) s hs
    exact ⟨(s, session), (dget_eq_some_iff _ hA s session).mp hse, rfl, hen⟩
  · intro q hq
    obtain ⟨sids, hsd, hmem⟩ := h5 q.1 q.2 ((dget_eq_some_iff _ hA q.1 q.2).mpr hq)
    exact ⟨(q.2.enrollment, sids), (dget_eq_some_iff _ hB _ sids).mp hsd, rfl, hmem⟩

/-! ### Shape lemmas for `connect` and `disconnect` -/

theorem connect_ok (collab : Collaborators) (st : State) (sid : Sid)
    (query_token : Option String) (auth : Option (Option String))
    (enrollment : Enrollment) (context : Ctx)
    (hdec : decode_student_token collab.jwt_decode (extract_token query_token auth) =
      Except.ok enrollment)
    (hros : collab.get_roster_context enrollment = Except.ok context) :
    connect collab st sid query_token auth =
      Except.ok (connect_success_state st sid enrollment context,
        connect_success_effects sid enrollment context) := by
  simp only [connect, hdec, hros]
  rfl

theorem connect_refused_of_decode_error (collab : Collaborators) (st : State) (sid : Sid)
    (query_token : Option String) (auth : Option (Option String)) (e : String)
    (hdec : decode_student_token collab.jwt_decode (extract_token query_token auth) =
      Except.error e) :
    connect collab st sid query_token auth = Except.error "unauthorized" := by
  simp only [connect, hdec]

theorem connect_refused_of_roster_error (collab : Collaborators) (st : State) (sid : Sid)
    (query_token : Option String) (auth : Option (Option String))
    (enrollment : Enrollment) (e : String)
    (hdec : decode_student_token collab.jwt_decode (extract_token query_token auth) =
      Except.ok enrollment)
    (hros : collab.get_roster_context enrollment = Except.error e) :
    connect collab st sid query_token auth = Except.error "unauthorized" := by
  simp only [connect, hdec, hros]

theorem disconnect_of_unknown (st : State) (sid : Sid)
    (hac : dget st.ACTIVE_CLIENTS sid = none) : disconnect st sid = (st, []) := by
  simp only [disconnect, hac]

theorem disconnect_of_untracked (st : State) (sid : Sid) (session : Session)
    (hac : dget st.ACTIVE_CLIENTS sid = some session)
    (hsc : dget st.STUDENT_CONNECTIONS session.enrollment = none) :
    disconnect st sid = (⟨dpop st.ACTIVE_CLIENTS sid, st.STUDENT_CONNECTIONS⟩, []) := by
  simp only [disconnect, hac, hsc]

theorem disconnect_of_last (st : State) (sid : Sid) (session : Session) (sids : List Sid)
    (hac : dget st.ACTIVE_CLIENTS sid = some session)
    (hsc : dget st.STUDENT_CONNECTIONS session.enrollment = some sids)
    (hrem : sdiscard sids sid = []) :
    disconnect st sid =
      (⟨dpop st.ACTIVE_CLIENTS sid, dpop st.STUDENT_CONNECTIONS session.enrollment⟩,
       [_broadcast_presence session.context session.enrollment "offline"]) := by
  simp only [disconnect, hac, hsc]
  rw [if_pos hrem]

theorem disconnect_of_remaining (st : State) (sid : Sid) (session : Session) (sids : List Sid)
    (hac : dget st.ACTIVE_CLIENTS sid = some session)
    (hsc : dget st.STUDENT_CONNECTIONS session.enrollment = some sids)
    (hrem : sdiscard sids sid ≠ []) :
    disconnect st sid =
      (⟨dpop st.ACTIVE_CLIENTS sid,
        dset st.STUDENT_CONNECTIONS session.enrollment (sdiscard sids sid)⟩, []) := by
  simp only [disconnect, hac, hsc]
  rw [if_neg hrem]

/-! ### Preservation of the invariant -/

theorem inv_connect_success (st : State) (sid : Sid) (enrollment : Enrollment) (context : Ctx)
    (hInv : Inv st) (hfresh : dget st.ACTIVE_CLIENTS sid = none) :
    Inv (connect_success_state st sid enrollment context) := by
  cases hsc : dget st.STUDENT_CONNECTIONS enrollment with
  | some sids0 =>
    have hstate : connect_success_state st sid enrollment context =
        ⟨dset st.ACTIVE_CLIENTS sid ⟨enrollment, context⟩,
         dset st.STUDENT_CONNECTIONS enrollment (sadd sids0 sid)⟩ := by
      simp only [connect_success_state, hsc]
    rw [hstate]
    apply inv_of_pointwise
    · exact keys_dset_nodup _ _ _ hInv.1
    · exact keys_dset_nodup _ _ _ hInv.2.1
    · intro e sids h
      by_cases he : e = enrollment
      · subst he
        rw [dget_dset_self] at h
        injection h with h
        exact h ▸ sadd_ne_nil sids0 sid
      · rw [dget_dset_ne _ _ _ _ he] at h
        exact inv_sids_ne_nil hInv h
    · intro e sids h sid' hmem
      by_cases hsid : sid' = sid
      · subst hsid
        refine ⟨⟨enrollment, context⟩, dget_dset_self _ _ _, ?_⟩
        by_cases he : e = enrollment
        · exact he.symm
        · rw [dget_dset_ne _ _ _ _ he] at h
          obtain ⟨sess, hse, _⟩ := (inv_mem_iff hInv h sid').mp hmem
          rw [hfresh] at hse
          cases hse
      · by_cases he : e = enrollment
        · subst he
          rw [dget_dset_self] at h
          injection h with h
          subst h
          rcases (mem_sadd sids0 sid' sid).mp hmem with hm | hm
          · obtain ⟨sess, hse, hen⟩ := (inv_mem_iff hInv hsc sid').mp hm
            exact ⟨sess, by rw [dget_dset_ne _ _ _ _ hsid]; exact hse, hen⟩
          · exact absurd hm hsid
        · rw [dget_dset_ne _ _ _ _ he] at h
          obtain ⟨sess, hse, hen⟩ := (inv_mem_iff hInv h sid').mp hmem
          exact ⟨sess, by rw [dget_dset_ne _ _ _ _ hsid]; exact hse, hen⟩
    · intro sid' sess h
      by_cases hsid : sid' = sid
      · subst hsid
        rw [dget_dset_self] at h
        injection h with h
        subst h
        exact ⟨sadd sids0 sid', dget_dset_self _ _ _, (mem_sadd _ _ _).mpr (Or.inr rfl)⟩
      · rw [dget_dset_ne _ _ _ _ hsid] at h
        obtain ⟨sids1, hs1⟩ := inv_covered hInv h
        have hmem : sid' ∈ sids1 := (inv_mem_iff hInv hs1 sid').mpr ⟨sess, h, rfl⟩
        by_cases he : sess.enrollment = enrollment
        · rw [he, hsc] at hs1
          injection hs1 with hs1
          subst hs1
          refine ⟨sadd sids0 sid, ?_, (mem_sadd _ _ _).mpr (Or.inl hmem)⟩
          rw [he]
          exact dget_dset_self _ _ _
        · exact ⟨sids1, by rw [dget_dset_ne _ _ _ _ he]; exact hs1, hmem⟩
  | none =>
    have hstate : connect_success_state st sid enrollment context =
        ⟨dset st.ACTIVE_CLIENTS sid ⟨enrollment, context⟩,
         st.STUDENT_CONNECTIONS ++ [(enrollment, [sid])]⟩ := by
      simp only [connect_success_state, hsc]
    rw [hstate]
    apply inv_of_pointwise
    · exact keys_dset_nodup _ _ _ hInv.1
    · exact keys_append_singleton_nodup _ _ _ hInv.2.1 hsc
    · intro e sids h
      by_cases he : e = enrollment
      · subst he
        rw [dget_append_singleton_self _ _ _ hsc] at h
        injection h with h
        simp [← h]
      · rw [dget_append_singleton_ne _ _ _ _ he] at h
        exact inv_sids_ne_nil hInv h
    · intro e sids h sid' hmem
      by_cases he : e = enrollment
      · subst he
        rw [dget_append_singleton_self _ _ _ hsc] at h
        injection h with h
        subst h
        rcases List.mem_singleton.mp hmem with rfl
        exact ⟨⟨e, context⟩, dget_dset_self _ _ _, rfl⟩
      · rw [dget_append_singleton_ne _ _ _ _ he] at h
        obtain ⟨sess, hse, hen⟩ := (inv_mem_iff hInv h sid').mp hmem
        by_cases hsid : sid' = sid
        · subst hsid
          rw [hfresh] at hse
          cases hse
        · exact ⟨sess, by rw [dget_dset_ne _ _ _ _ hsid]; exact hse, hen⟩
    · intro sid' sess h
      by_cases hsid : sid' = sid
      · subst hsid
        rw [dget_dset_self] at h
        injection h with h
        subst h
        exact ⟨[sid'], dget_append_singleton_self _ _ _ hsc, by simp⟩
      · rw [dget_dset_ne _ _ _ _ hsid] at h
        obtain ⟨sids1, hs1⟩ := inv_covered hInv h
        have hmem : sid' ∈ sids1 := (inv_mem_iff hInv hs1 sid').mpr ⟨sess, h, rfl⟩
        by_cases he : sess.enrollment = enrollment
        · rw [he, hsc] at hs1
          cases hs1
        · exact ⟨sids1, by rw [dget_append_singleton_ne _ _ _ _ he]; exact hs1, hmem⟩

theorem inv_disconnect (st : State) (sid : Sid) (hInv : Inv st) :
    Inv (disconnect st sid).1 := by
  cases hac : dget st.ACTIVE_CLIENTS sid with
  | none =>
    rw [disconnect_of_unknown st sid hac]
    exact hInv
  | some session =>
    obtain ⟨sids, hsc⟩ := inv_covered hInv hac
    by_cases hrem : sdiscard sids sid = []
    · rw [disconnect_of_last st sid session sids hac hsc hrem]
      apply inv_of_pointwise
      · exact keys_dpop_nodup _ _ hInv.1
      · exact keys_dpop_nodup _ _ hInv.2.1
      · intro e s h
        by_cases he : e = session.enrollment
        · subst he
          rw [dget_dpop_self _ _ hInv.2.1] at h
          cases h
        · rw [dget_dpop_ne _ _ _ he] at h
          exact inv_sids_ne_nil hInv h
      · intro e s h sid' hmem
        by_cases he : e = session.enrollment
        · subst he
          rw [dget_dpop_self _ _ hInv.2.1] at h
          cases h
        · rw [dget_dpop_ne _ _ _ he] at h
          obtain ⟨sess, hse, hen⟩ := (inv_mem_iff hInv h sid').mp hmem
          by_cases hsid : sid' = sid
          · subst hsid
            rw [hac] at hse
            injection hse with hse
            subst hse
            exact absurd hen.symm he
          · exact ⟨sess, by rw [dget_dpop_ne _ _ _ hsid]; exact hse, hen⟩
      · intro sid' sess h
        have hsid : sid' ≠ sid := by
          intro hh
          subst hh
          rw [dget_dpop_self _ _ hInv.1] at h
          cases h
        rw [dget_dpop_ne _ _ _ hsid] at h
        obtain ⟨sids1, hs1⟩ := inv_covered hInv h
        have hmem : sid' ∈ sids1 := (inv_mem_iff hInv hs1 sid').mpr ⟨sess, h, rfl⟩
        by_cases he : sess.enrollment = session.enrollment
        · rw [he, hsc] at hs1
          injection hs1 with hs1
          subst hs1
          have hd : sid' ∈ sdiscard sids sid := (mem_sdiscard _ _ _).mpr ⟨hmem, hsid⟩
          rw [hrem] at hd
          cases hd
        · exact ⟨sids1, by rw [dget_dpop_ne _ _ _ he]; exact hs1, hmem⟩
    · rw [disconnect_of_remaining st sid session sids hac hsc hrem]
      apply inv_of_pointwise
      · exact keys_dpop_nodup _ _ hInv.1
      · exact keys_dset_nodup _ _ _ hInv.2.1
      · intro e s h
        by_cases he : e = session.enrollment
        · subst he
          rw [dget_dset_self] at h
          injection h with h
          exact h ▸ hrem
        · rw [dget_dset_ne _ _ _ _ he] at h
          exact inv_sids_ne_nil hInv h
      · intro e s h sid' hmem
        by_cases he : e = session.enrollment
        · subst he
          rw [dget_dset_self] at h
          injection h with h
          subst h
          obtain ⟨hm, hne⟩ := (mem_sdiscard _ _ _).mp hmem
          obtain ⟨sess, hse, hen⟩ := (inv_mem_iff hInv hsc sid').mp hm
          exact ⟨sess, by rw [dget_dpop_ne _ _ _ hne]; exact hse, hen⟩
        · rw [dget_dset_ne _ _ _ _ he] at h
          obtain ⟨sess, hse, hen⟩ := (inv_mem_iff hInv h sid').mp hmem
          by_cases hsid : sid' = sid
          · subst hsid
            rw [hac] at hse
            injection hse with hse
            subst hse
            exact absurd hen.symm he
          · exact ⟨sess, by rw [dget_dpop_ne _ _ _ hsid]; exact hse, hen⟩
      · intro sid' sess h
        have hsid : sid' ≠ sid := by
          intro hh
          subst hh
          rw [dget_dpop_self _ _ hInv.1] at h
          cases h
        rw [dget_dpop_ne _ _ _ hsid] at h
        obtain ⟨sids1, hs1⟩ := inv_covered hInv h
        have hmem : sid' ∈ sids1 := (inv_mem_iff hInv hs1 sid').mpr ⟨sess, h, rfl⟩
        by_cases he : sess.enrollment = session.enrollment
        · rw [he, hsc] at hs1
          injection hs1 with hs1
          subst hs1
          refine ⟨sdiscard sids sid, ?_, (mem_sdiscard _ _ _).mpr ⟨hmem, hsid⟩⟩
          rw [he]
          exact dget_dset_self _ _ _
        · exact ⟨sids1, by rw [dget_dset_ne _ _ _ _ he]; exact hs1, hmem⟩

theorem onlineIff_of_inv {st : State} (h : Inv st) : OnlineIff st := by
  intro e
  constructor
  · rintro ⟨sids, hs, hne⟩
    obtain ⟨x, hx⟩ := List.exists_mem_of_ne_nil sids hne
    obtain ⟨sess, hse, hen⟩ := (inv_mem_iff h hs x).mp hx
    exact ⟨x, sess, hse, hen⟩
  · rintro ⟨sid, sess, hse, rfl⟩
    obtain ⟨sids, hs⟩ := inv_covered h hse
    exact ⟨sids, hs, inv_sids_ne_nil h hs⟩

theorem mem_online_snapshot {st : State} (h : Inv st) (e : Enrollment) :
    e ∈ online_snapshot st ↔
      ∃ sid session, dget st.ACTIVE_CLIENTS sid = some session ∧ session.enrollment = e := by
  rw [← onlineIff_of_inv h e]
  unfold online_snapshot
  simp only [List.mem_map, List.mem_filter]
  constructor
  · rintro ⟨p, ⟨hp, hne⟩, rfl⟩
    refine ⟨p.2, (dget_eq_some_iff _ h.2.1 p.1 p.2).mpr hp, ?_⟩
    simpa using hne
  · rintro ⟨sids, hs, hne⟩
    refine ⟨(e, sids), ⟨(dget_eq_some_iff _ h.2.1 e sids).mp hs, ?_⟩, rfl⟩
    simpa using hne

theorem handle_presence_request_of_session (st : State) (sid : Sid) (session : Session)
    (hac : dget st.ACTIVE_CLIENTS sid = some session) :
    handle_presence_request st sid =
      (st, [Effect.emit "presence:snapshot" (Payload.snapshot (online_snapshot st)) sid none,
            _broadcast_presence session.context session.enrollment "online"]) := by
  simp only [handle_presence_request, hac, online_snapshot]

/-! ### Shape lemmas for the event handlers -/

theorem handle_signal_drop_missing (collab : Collaborators) (st : State) (sid : Sid)
    (data : SignalData)
    (h : truthy data.peer_enrollment = false ∨ truthy data.signal_type = false) :
    handle_signal collab st sid data = (st, []) := by
  unfold handle_signal
  cases hac : dget st.ACTIVE_CLIENTS sid with
  | none => rfl
  | some session => rcases h with h | h <;> simp [h]

theorem handle_send_message_drop_missing (collab : Collaborators) (st : State) (sid : Sid)
    (data : SendMessageData)
    (h : truthy data.peer_enrollment = false ∨ strTrim (data.message.getD "") = "") :
    handle_send_message collab st sid data = (st, []) := by
  unfold handle_send_message
  cases hac : dget st.ACTIVE_CLIENTS sid with
  | none => rfl
  | some session => rcases h with h | h <;> simp [h]

theorem handle_send_message_drop_classmate (collab : Collaborators) (st : State) (sid : Sid)
    (data : SendMessageData) (session : Session)
    (hac : dget st.ACTIVE_CLIENTS sid = some session)
    (hcls : collab.ensure_same_classmate session.context (data.peer_enrollment.getD "") = none) :
    handle_send_message collab st sid data = (st, []) := by
  simp only [handle_send_message, hac]
  split
  · rfl
  · simp [hcls]

theorem handle_send_message_accepted (collab : Collaborators) (st : State) (sid : Sid)
    (data : SendMessageData) (session : Session) (peer_context : Ctx)
    (hac : dget st.ACTIVE_CLIENTS sid = some session)
    (hpeer : truthy data.peer_enrollment = true)
    (htext : strTrim (data.message.getD "") ≠ "")
    (hcls : collab.ensure_same_classmate session.context (data.peer_enrollment.getD "") =
      some peer_context) :
    handle_send_message collab st sid data =
      (st,
       [Effect.send_chat_message_call
          ⟨data.peer_enrollment.getD "", strTrim (data.message.getD ""), data.share_metadata⟩
          session.context peer_context,
        Effect.emit "message:new"
          (Payload.newMessage
            (collab.send_chat_message
              ⟨data.peer_enrollment.getD "", strTrim (data.message.getD ""), data.share_metadata⟩
              session.context peer_context)
            [session.enrollment, data.peer_enrollment.getD ""])
          (_personal_room session.context.admin_id session.enrollment) none,
        Effect.emit "message:new"
          (Payload.newMessage
            (collab.send_chat_message
              ⟨data.peer_enrollment.getD "", strTrim (data.message.getD ""), data.share_metadata⟩
              session.context peer_context)
            [session.enrollment, data.peer_enrollment.getD ""])
          (_personal_room session.context.admin_id (data.peer_enrollment.getD "")) none]) := by
  simp only [handle_send_message, hac]
  have hguard : ¬(!truthy data.peer_enrollment ||
      decide (strTrim (data.message.getD "") = "")) = true := by
    simp [hpeer, htext]
  rw [if_neg hguard, hcls]

/-! ### Case-insensitivity of the room derivation -/

theorem char_toNat_ofNat_valid {n : Nat} (h : n.isValidChar) : (Char.ofNat n).toNat = n := by
  rw [Char.ofNat, dif_pos h]
  rfl

theorem char_eq_iff_toNat (c d : Char) : c = d ↔ c.toNat = d.toNat := by
  constructor
  · exact congrArg Char.toNat
  · intro h
    have h2 := congrArg Char.ofNat h
    rwa [Char.ofNat_toNat, Char.ofNat_toNat] at h2

theorem char_toLower_of_upper (c : Char) (h : 65 ≤ c.toNat ∧ c.toNat ≤ 90) :
    c.toLower = Char.ofNat (c.toNat + 32) := by
  unfold Char.toLower
  exact if_pos h

theorem char_toLower_of_not_upper (c : Char) (h : ¬(65 ≤ c.toNat ∧ c.toNat ≤ 90)) :
    c.toLower = c := by
  unfold Char.toLower
  exact if_neg h

theorem char_toLower_idem (c : Char) : c.toLower.toLower = c.toLower := by
  by_cases h : 65 ≤ c.toNat ∧ c.toNat ≤ 90
  · rw [char_toLower_of_upper c h]
    apply char_toLower_of_not_upper
    have hv : (c.toNat + 32).isValidChar := Or.inl (by omega)
    rw [char_toNat_ofNat_valid hv]
    omega
  · rw [char_toLower_of_not_upper c h, char_toLower_of_not_upper c h]

theorem char_isWhitespace_iff (c : Char) :
    c.isWhitespace = true ↔ (c.toNat = 32 ∨ c.toNat = 9 ∨ c.toNat = 13 ∨ c.toNat = 10) := by
  simp only [Char.isWhitespace, Bool.or_eq_true, decide_eq_true_eq]
  rw [char_eq_iff_toNat c ' ', char_eq_iff_toNat c '\t', char_eq_iff_toNat c '\r',
    char_eq_iff_toNat c '\n']
  simp only [show (' '.toNat = 32) from rfl, show ('\t'.toNat = 9) from rfl,
    show ('\r'.toNat = 13) from rfl, show ('\n'.toNat = 10) from rfl]
  tauto

theorem char_isWhitespace_toLower (c : Char) : c.toLower.isWhitespace = c.isWhitespace := by
  by_cases h : 65 ≤ c.toNat ∧ c.toNat ≤ 90
  · have hl : c.toLower.toNat = c.toNat + 32 := by
      rw [char_toLower_of_upper c h]
      exact char_toNat_ofNat_valid (Or.inl (by omega))
    rw [Bool.eq_iff_iff, char_isWhitespace_iff, char_isWhitespace_iff, hl]
    omega
  · rw [char_toLower_of_not_upper c h]

theorem strLower_append (a b : String) : strLower (a ++ b) = strLower a ++ strLower b := by
  apply congrArg String.mk
  rw [String.data_append]
  exact List.map_append Char.toLower a.data b.data

theorem strLower_idem (s : String) : strLower (strLower s) = strLower s := by
  apply congrArg String.mk
  show (s.data.map Char.toLower).map Char.toLower = s.data.map Char.toLower
  rw [List.map_map]
  exact List.map_congr_left (fun c _ => char_toLower_idem c)

theorem strLower_eq_empty_iff (s : String) : strLower s = "" ↔ s = "" := by
  constructor
  · intro h
    have h2 : s.data.map Char.toLower = [] := congrArg String.data h
    have h3 : s.data = [] := List.map_eq_nil_iff.mp h2
    cases s
    simp only [String.data] at h3
    subst h3
    rfl
  · rintro rfl
    rfl

theorem strTrim_strLower (s : String) : strTrim (strLower s) = strLower (strTrim s) := by
  apply congrArg String.mk
  show (((s.data.map Char.toLower).dropWhile Char.isWhitespace).reverse.dropWhile
      Char.isWhitespace).reverse =
    (((s.data.dropWhile Char.isWhitespace).reverse.dropWhile Char.isWhitespace).reverse).map
      Char.toLower
  have hws : (Char.isWhitespace ∘ Char.toLower) = Char.isWhitespace :=
    funext char_isWhitespace_toLower
  rw [List.dropWhile_map, hws, ← List.map_reverse, List.dropWhile_map, hws, ← List.map_reverse]

theorem strTrim_strLower_eq_empty_iff (s : String) :
    strTrim (strLower s) = "" ↔ strTrim s = "" := by
  rw [strTrim_strLower]
  exact strLower_eq_empty_iff (strTrim s)

theorem personal_room_lower_inputs (tenant enrollment : String) :
    _personal_room (strLower tenant) (strLower enrollment) = _personal_room tenant enrollment := by
  simp only [_personal_room, strLower_append, strLower_idem]

theorem class_room_lower_inputs (tenant std : String) (division : Option String) :
    _class_room ⟨strLower tenant, strLower std, division.map strLower⟩ =
      _class_room ⟨tenant, std, division⟩ := by
  have hgetD : (division.map strLower).getD "" = strLower (division.getD "") := by
    cases division <;> rfl
  by_cases hdiv : strTrim (division.getD "") = ""
  · have hdiv' : strTrim ((division.map strLower).getD "") = "" := by
      rw [hgetD]
      exact (strTrim_strLower_eq_empty_iff _).mpr hdiv
    simp only [_class_room, hdiv, hdiv', if_pos rfl, strLower_append, strLower_idem]
  · have hcond : ¬(strLower (strTrim (division.getD "")) = "") :=
      fun h => hdiv ((strLower_eq_empty_iff _).mp h)
    simp only [_class_room, hgetD, strTrim_strLower]
    rw [if_neg hcond, if_neg hdiv]
    simp only [strLower_append, strLower_idem]

/-! ### Claim theorems -/

/-- C5: every dropped event leaves the gateway state unchanged and invokes
no external collaborator: a `signal` with a missing peer enrollment or
signal type, a `send_message` with a missing peer enrollment or empty
trimmed text, and a `send_message` whose classmate check rejects, each
return the state untouched with an empty action list (no persistence
call, no emit, no registry or presence mutation). -/
theorem claim5_dropped_events_no_effects (collab : Collaborators) (st : State) (sid : Sid)
    (sdata : SignalData) (mdata : SendMessageData) (session : Session)
    (hsess : dget st.ACTIVE_CLIENTS sid = some session) :
    ((truthy sdata.peer_enrollment = false ∨ truthy sdata.signal_type = false) →
      handle_signal collab st sid sdata = (st, [])) ∧
    ((truthy mdata.peer_enrollment = false ∨ strTrim (mdata.message.getD "") = "") →
      handle_send_message collab st sid mdata = (st, [])) ∧
    (collab.ensure_same_classmate session.context (mdata.peer_enrollment.getD "") = none →
      handle_send_message collab st sid mdata = (st, [])) :=
  ⟨handle_signal_drop_missing collab st sid sdata,
   handle_send_message_drop_missing collab st sid mdata,
   handle_send_message_drop_classmate collab st sid mdata session hsess⟩

/-- C5 witness: concrete dropped events (signal without peer, send_message
with whitespace-only text, send_message to a non-classmate) produce no
state change and no actions. -/
theorem claim5_witness :
    handle_signal collabA stOne "s1" ⟨none, some "offer", none⟩ = (stOne, []) ∧
    handle_send_message collabA stOne "s1" ⟨some "st200", some "   ", none⟩ = (stOne, []) ∧
    handle_send_message collabA stOne "s1" ⟨some "st300", some "hello", none⟩ = (stOne, []) :=
  ⟨(claim5_dropped_events_no_effects collabA stOne "s1" ⟨none, some "offer", none⟩
      ⟨some "st200", some "   ", none⟩ sessionA (by decide)).1 (Or.inl (by decide)),
   (claim5_dropped_events_no_effects collabA stOne "s1" ⟨none, some "offer", none⟩
      ⟨some "st200", some "   ", none⟩ sessionA (by decide)).2.1 (Or.inr (by decide)),
   (claim5_dropped_events_no_effects collabA stOne "s1" ⟨none, some "offer", none⟩
      ⟨some "st300", some "hello", none⟩ sessionA (by decide)).2.2 (by decide)⟩

/-- C6: an accepted `send_message` (joined connection, classmate peer,
non-empty trimmed text) calls the persistence collaborator exactly once
with the trimmed text, and emits `message:new` with the stored record and
both participants once to the sender's and once to the receiver's
personal room, both rooms derived in the sender's tenant, with identical
payloads. -/
theorem claim6_send_message_accepted (collab : Collaborators) (st : State) (sid : Sid)
    (data : SendMessageData) (session : Session) (peer_context : Ctx)
    (hsess : dget st.ACTIVE_CLIENTS sid = some session)
    (hpeer : truthy data.peer_enrollment = true)
    (htext : strTrim (data.message.getD "") ≠ "")
    (hcls : collab.ensure_same_classmate session.context (data.peer_enrollment.getD "") =
      some peer_context) :
    handle_send_message collab st sid data =
      (st,
       [Effect.send_chat_message_call
          ⟨data.peer_enrollment.getD "", strTrim (data.message.getD ""), data.share_metadata⟩
          session.context peer_context,
        Effect.emit "message:new"
          (Payload.newMessage
            (collab.send_chat_message
              ⟨data.peer_enrollment.getD "", strTrim (data.message.getD ""), data.share_metadata⟩
              session.context peer_context)
            [session.enrollment, data.peer_enrollment.getD ""])
          (_personal_room session.context.admin_id session.enrollment) none,
        Effect.emit "message:new"
          (Payload.newMessage
            (collab.send_chat_message
              ⟨data.peer_enrollment.getD "", strTrim (data.message.getD ""), data.share_metadata⟩
              session.context peer_context)
            [session.enrollment, data.peer_enrollment.getD ""])
          (_personal_room session.context.admin_id (data.peer_enrollment.getD "")) none]) ∧
    (handle_send_message collab st sid data).2.countP
      (fun eff => match eff with
        | Effect.send_chat_message_call _ _ _ => true
        | _ => false) = 1 := by
  have h := handle_send_message_accepted collab st sid data session peer_context
    hsess hpeer htext hcls
  refine ⟨h, ?_⟩
  rw [h]
  rfl

/-- C6 witness: `send_message` from `st100` to classmate `st200` with text
`" hello "` persists the trimmed text `"hello"` once and emits the stored
record to both personal rooms. -/
theorem claim6_witness :
    handle_send_message collabA stOne "s1" ⟨some "st200", some " hello ", none⟩ =
      (stOne,
       [Effect.send_chat_message_call ⟨"st200", "hello", none⟩ ctxA ctxA,
        Effect.emit "message:new" (Payload.newMessage ⟨7, "hello"⟩ ["st100", "st200"])
          "student:t1:st100" none,
        Effect.emit "message:new" (Payload.newMessage ⟨7, "hello"⟩ ["st100", "st200"])
          "student:t1:st200" none]) := by
  have h := (claim6_send_message_accepted collabA stOne "s1" ⟨some "st200", some " hello ", none⟩
    sessionA ctxA (by decide) (by decide) (by decide) (by decide)).1
  rw [h]
  decide

/-- C7: room-key derivation is pure, deterministic and case-insensitive:
the personal room is `student:{tenant}:{enrollment}` lower-cased; the
class room is `class:{tenant}:{std}:{division}` lower-cased with the
division trimmed and a missing, empty or whitespace-only division mapping
to the literal token `all`; lowering any of the inputs does not change
either room key, and the claim's concrete instances hold. -/
theorem claim7_room_derivation :
    (∀ tenant enrollment, _personal_room tenant enrollment =
      strLower ("student:" ++ tenant ++ ":" ++ enrollment)) ∧
    (∀ tenant std division, strTrim division = "" →
      _class_room ⟨tenant, std, some division⟩ =
        strLower ("class:" ++ tenant ++ ":" ++ std ++ ":" ++ "all")) ∧
    (∀ tenant std division, strTrim division ≠ "" →
      _class_room ⟨tenant, std, some division⟩ =
        strLower ("class:" ++ tenant ++ ":" ++ std ++ ":" ++ strTrim division)) ∧
    (∀ tenant std, _class_room ⟨tenant, std, none⟩ = _class_room ⟨tenant, std, some ""⟩) ∧
    (∀ tenant std division,
      _class_room ⟨strLower tenant, strLower std, Option.map strLower division⟩ =
        _class_room ⟨tenant, std, division⟩) ∧
    (∀ tenant enrollment, _personal_room (strLower tenant) (strLower enrollment) =
      _personal_room tenant enrollment) ∧
    (_class_room ⟨"T1", "5", some " A "⟩ = _class_room ⟨"t1", "5", some "a"⟩) ∧
    (_class_room ⟨"T1", "5", none⟩ = "class:t1:5:all") ∧
    (_class_room ⟨"T1", "5", some ""⟩ = "class:t1:5:all") := by
  refine ⟨fun t e => rfl, ?_, ?_, fun t s => rfl, class_room_lower_inputs,
    personal_room_lower_inputs, by decide, by decide, by decide⟩
  · intro t s d hd
    simp [_class_room, hd]
  · intro t s d hd
    simp [_class_room, hd]

/-- C7 witness: the division laws applied at whitespace-only `" "` and at
`" A "`. -/
theorem claim7_witness :
    (strTrim " " = "" ∧
      _class_room ⟨"T1", "5", some " "⟩ =
        strLower ("class:" ++ "T1" ++ ":" ++ "5" ++ ":" ++ "all")) ∧
    (strTrim " A " ≠ "" ∧
      _class_room ⟨"T1", "5", some " A "⟩ =
        strLower ("class:" ++ "T1" ++ ":" ++ "5" ++ ":" ++ strTrim " A ")) :=
  ⟨⟨by decide, claim7_room_derivation.2.1 "T1" "5" " " (by decide)⟩,
   ⟨by decide, claim7_room_derivation.2.2.1 "T1" "5" " A " (by decide)⟩⟩

/-- C9: `presence:request` from a joined connection emits the snapshot
reply addressed to the requesting connection only (room = its sid),
listing exactly the enrollments with at least one live connection, and
then unconditionally re-broadcasts the requester's own `online` presence
to the class room. -/
theorem claim9_presence_request (st : State) (sid : Sid) (session : Session)
    (hInv : Inv st) (hac : dget st.ACTIVE_CLIENTS sid = some session) :
    handle_presence_request st sid =
      (st, [Effect.emit "presence:snapshot" (Payload.snapshot (online_snapshot st)) sid none,
            _broadcast_presence session.context session.enrollment "online"]) ∧
    (∀ e, e ∈ online_snapshot st ↔
      ∃ csid csession, dget st.ACTIVE_CLIENTS csid = some csession ∧
        csession.enrollment = e) :=
  ⟨handle_presence_request_of_session st sid session hac, mem_online_snapshot hInv⟩

/-- C9 witness: a `presence:request` from `s1` in the one-connection state
replies to `s1` with the snapshot `["st100"]` and re-broadcasts `online`
to the class room even though `st100` is already online. -/
theorem claim9_witness :
    handle_presence_request stOne "s1" =
      (stOne,
       [Effect.emit "presence:snapshot" (Payload.snapshot ["st100"]) "s1" none,
        Effect.emit "presence:update" (Payload.presence "st100" "online") "class:t1:5:a" none]) ∧
    "st100" ∈ online_snapshot stOne := by
  have h := claim9_presence_request stOne "s1" sessionA (by decide) (by decide)
  constructor
  · rw [h.1]
    decide
  · exact (h.2 "st100").mpr ⟨"s1", sessionA, by decide, rfl⟩

/-- C10: `broadcast_chat_message` filters out falsy enrollments,
lower-cases and de-duplicates the rest, and emits exactly one
`message:new` per distinct lower-cased enrollment to that enrollment's
personal room with the given payload and skip_sid. -/
theorem claim10_broadcast_chat_message (admin_id : String) (enrollments : List String)
    (payload : Payload) (skip_sid : Option Sid) :
    broadcast_chat_message admin_id enrollments payload skip_sid =
      (((enrollments.filter (fun e => decide (e ≠ ""))).map strLower).dedup).map
        (fun enrollment =>
          Effect.emit "message:new" payload (_personal_room admin_id enrollment) skip_sid) ∧
    (((enrollments.filter (fun e => decide (e ≠ ""))).map strLower).dedup).Nodup ∧
    (∀ e, e ∈ ((enrollments.filter (fun e => decide (e ≠ ""))).map strLower).dedup ↔
      ∃ e₀, e₀ ∈ enrollments ∧ e₀ ≠ "" ∧ strLower e₀ = e) := by
  refine ⟨rfl, List.nodup_dedup _, fun e => ?_⟩
  simp only [List.mem_dedup, List.mem_map, List.mem_filter, decide_eq_true_eq]
  constructor
  · rintro ⟨e₀, ⟨hmem, hne⟩, hlow⟩
    exact ⟨e₀, hmem, hne, hlow⟩
  · rintro ⟨e₀, hmem, hne, hlow⟩
    exact ⟨e₀, ⟨hmem, hne⟩, hlow⟩

/-- C1 counterexample: enrollment `st100` already has the live connection
`s1`, yet a successful handshake for a second connection `s2` still
broadcasts an `online` presence event to the class room, contradicting
the claim that the event is emitted only on the 0-to-1 transition. -/
theorem claim1_counterexample :
    dget stOne.STUDENT_CONNECTIONS "st100" = some ["s1"] ∧
    connect collabA stOne "s2" (some "tokA") none =
      Except.ok (stTwo, connect_success_effects "s2" "st100" ctxA) ∧
    _broadcast_presence ctxA "st100" "online" ∈ connect_success_effects "s2" "st100" ctxA := by
  refine ⟨by decide, ?_, by decide⟩
  exact connect_ok collabA stOne "s2" (some "tokA") none "st100" ctxA rfl rfl

/-- C1 (amended): every successful handshake registers the connection,
joins the personal and class rooms, and then broadcasts exactly one
`online` presence event to the class room unconditionally — also when the
enrollment already has live connections. -/
theorem claim1_connect_always_broadcasts_online (collab : Collaborators) (st : State)
    (sid : Sid) (query_token : Option String) (auth : Option (Option String))
    (enrollment : Enrollment) (context : Ctx)
    (hdec : decode_student_token collab.jwt_decode (extract_token query_token auth) =
      Except.ok enrollment)
    (hros : collab.get_roster_context enrollment = Except.ok context) :
    connect collab st sid query_token auth =
      Except.ok (connect_success_state st sid enrollment context,
        connect_success_effects sid enrollment context) ∧
    (connect_success_effects sid enrollment context).countP
      (fun eff => match eff with
        | Effect.emit "presence:update" _ _ _ => true
        | _ => false) = 1 ∧
    _broadcast_presence context enrollment "online" ∈
      connect_success_effects sid enrollment context := by
  refine ⟨connect_ok collab st sid query_token auth enrollment context hdec hros, rfl, ?_⟩
  simp [connect_success_effects]

/-- C1 witness: the amended theorem applied to a second connection of an
already-online enrollment. -/
theorem claim1_witness :
    connect collabA stOne "s2" (some "tokA") none =
      Except.ok (connect_success_state stOne "s2" "st100" ctxA,
        connect_success_effects "s2" "st100" ctxA) ∧
    (connect_success_effects "s2" "st100" ctxA).countP
      (fun eff => match eff with
        | Effect.emit "presence:update" _ _ _ => true
        | _ => false) = 1 := by
  have h := claim1_connect_always_broadcasts_online collabA stOne "s2" (some "tokA") none
    "st100" ctxA rfl rfl
  exact ⟨h.1, h.2.1⟩

/-- C2 counterexample: connection id `s1` is already registered for
`st100`, yet a handshake reusing `s1` (now authenticating as `st200`)
succeeds — no `DuplicateConnection` failure — and silently overwrites the
existing record. -/
theorem claim2_counterexample :
    dget stOne.ACTIVE_CLIENTS "s1" = some sessionA ∧
    connect collabA stOne "s1" (some "tokB") none =
      Except.ok (connect_success_state stOne "s1" "st200" ctxA,
        connect_success_effects "s1" "st200" ctxA) ∧
    dget (connect_success_state stOne "s1" "st200" ctxA).ACTIVE_CLIENTS "s1" = some sessionB := by
  refine ⟨by decide, ?_, by decide⟩
  exact connect_ok collabA stOne "s1" (some "tokB") none "st200" ctxA rfl rfl

/-- C2 (amended): registering a connection id that is already present
never fails; the handshake succeeds and the registry entry is silently
overwritten with the new session (there is no duplicate guard). -/
theorem claim2_duplicate_overwrites (collab : Collaborators) (st : State) (sid : Sid)
    (query_token : Option String) (auth : Option (Option String))
    (enrollment : Enrollment) (context : Ctx) (session₀ : Session)
    (_hdup : dget st.ACTIVE_CLIENTS sid = some session₀)
    (hdec : decode_student_token collab.jwt_decode (extract_token query_token auth) =
      Except.ok enrollment)
    (hros : collab.get_roster_context enrollment = Except.ok context) :
    connect collab st sid query_token auth =
      Except.ok (connect_success_state st sid enrollment context,
        connect_success_effects sid enrollment context) ∧
    dget (connect_success_state st sid enrollment context).ACTIVE_CLIENTS sid =
      some ⟨enrollment, context⟩ :=
  ⟨connect_ok collab st sid query_token auth enrollment context hdec hros,
   dget_dset_self st.ACTIVE_CLIENTS sid ⟨enrollment, context⟩⟩

/-- C2 witness: the amended theorem applied to the occupied connection id
`s1`. -/
theorem claim2_witness :
    connect collabA stOne "s1" (some "tokB") none =
      Except.ok (connect_success_state stOne "s1" "st200" ctxA,
        connect_success_effects "s1" "st200" ctxA) ∧
    dget (connect_success_state stOne "s1" "st200" ctxA).ACTIVE_CLIENTS "s1" =
      some ⟨"st200", ctxA⟩ :=
  claim2_duplicate_overwrites collabA stOne "s1" (some "tokB") none "st200" ctxA sessionA
    (by decide) rfl rfl

/-- C3 counterexample: from an invariant state a successful `connect`
that reuses the registered connection id `s1` under a different
enrollment leaves `st100` in the presence mapping with a non-empty sid
set although no registered connection for `st100` remains, so the
registry/presence correspondence is not preserved by every connect. -/
theorem claim3_counterexample :
    Inv stOne ∧
    connect collabA stOne "s1" (some "tokB") none =
      Except.ok (connect_success_state stOne "s1" "st200" ctxA,
        connect_success_effects "s1" "st200" ctxA) ∧
    ¬ OnlineIff (connect_success_state stOne "s1" "st200" ctxA) := by
  refine ⟨by decide,
    connect_ok collabA stOne "s1" (some "tokB") none "st200" ctxA rfl rfl, ?_⟩
  intro h
  obtain ⟨sid, session, hse, hen⟩ := (h "st100").mp ⟨["s1"], by decide, by decide⟩
  have hse' : dget [("s1", sessionB)] sid = some session := hse
  rw [dget_singleton] at hse'
  by_cases hs : ("s1" : String) = sid
  · rw [if_pos hs] at hse'
    injection hse' with hse'
    subst hse'
    exact absurd hen (by decide)
  · rw [if_neg hs] at hse'
    cases hse'

/-- C3 (amended): the registry/presence correspondence (an enrollment is
tracked with a non-empty sid set iff it has a registered connection, and
the online snapshot lists exactly those enrollments) holds in every
invariant state and is preserved by every disconnect and by every connect
whose connection id is not already registered. -/
theorem claim3_invariant_preserved (collab : Collaborators) (st st' : State) (sid : Sid)
    (query_token : Option String) (auth : Option (Option String)) (effs : List Effect)
    (hInv : Inv st) :
    OnlineIff st ∧
    (∀ e, e ∈ online_snapshot st ↔
      ∃ csid csession, dget st.ACTIVE_CLIENTS csid = some csession ∧
        csession.enrollment = e) ∧
    (dget st.ACTIVE_CLIENTS sid = none →
      connect collab st sid query_token auth = Except.ok (st', effs) →
      Inv st' ∧ OnlineIff st') ∧
    (Inv (disconnect st sid).1 ∧ OnlineIff (disconnect st sid).1) := by
  have hd := inv_disconnect st sid hInv
  refine ⟨onlineIff_of_inv hInv, mem_online_snapshot hInv, ?_, hd, onlineIff_of_inv hd⟩
  intro hfresh hok
  cases hdec : decode_student_token collab.jwt_decode (extract_token query_token auth) with
  | error e =>
    rw [connect_refused_of_decode_error collab st sid query_token auth e hdec] at hok
    cases hok
  | ok enrollment =>
    cases hros : collab.get_roster_context enrollment with
    | error e =>
      rw [connect_refused_of_roster_error collab st sid query_token auth enrollment e
        hdec hros] at hok
      cases hok
    | ok context =>
      rw [connect_ok collab st sid query_token auth enrollment context hdec hros] at hok
      injection hok with hok
      have hst : connect_success_state st sid enrollment context = st' :=
        congrArg Prod.fst hok
      rw [← hst]
      have hinv' := inv_connect_success st sid enrollment context hInv hfresh
      exact ⟨hinv', onlineIff_of_inv hinv'⟩

/-- C3 witness: the invariant holds in the one-connection state, is
preserved by the fresh-sid connect of `s2`, and by disconnect of `s1`. -/
theorem claim3_witness :
    Inv stOne ∧ (Inv stTwo ∧ OnlineIff stTwo) ∧ Inv (disconnect stOne "s1").1 := by
  have h := claim3_invariant_preserved collabA stOne stTwo "s2" (some "tokA") none
    (connect_success_effects "s2" "st100" ctxA) (by decide)
  refine ⟨by decide, h.2.2.1 (by decide) ?_,
    (claim3_invariant_preserved collabA stOne stTwo "s1" none none [] (by decide)).2.2.2.1⟩
  exact connect_ok collabA stOne "s2" (some "tokA") none "st100" ctxA rfl rfl

/-- C4: disconnecting a registered connection removes its sid from the
enrollment's tracked set; exactly when the set empties, the enrollment's
entry is removed from the presence mapping (no empty-set entry lingers)
and exactly one `offline` presence event is broadcast; otherwise the
shrunken set stays and no presence event is emitted. -/
theorem claim4_disconnect (st : State) (sid : Sid) (session : Session)
    (hInv : Inv st) (hac : dget st.ACTIVE_CLIENTS sid = some session) :
    ∃ sids, dget st.STUDENT_CONNECTIONS session.enrollment = some sids ∧
      (sdiscard sids sid = [] →
        disconnect st sid =
          (⟨dpop st.ACTIVE_CLIENTS sid, dpop st.STUDENT_CONNECTIONS session.enrollment⟩,
           [_broadcast_presence session.context session.enrollment "offline"]) ∧
        dget (disconnect st sid).1.STUDENT_CONNECTIONS session.enrollment = none) ∧
      (sdiscard sids sid ≠ [] →
        disconnect st sid =
          (⟨dpop st.ACTIVE_CLIENTS sid,
            dset st.STUDENT_CONNECTIONS session.enrollment (sdiscard sids sid)⟩, []) ∧
        dget (disconnect st sid).1.STUDENT_CONNECTIONS session.enrollment =
          some (sdiscard sids sid)) := by
  obtain ⟨sids, hsc⟩ := inv_covered hInv hac
  refine ⟨sids, hsc, ?_, ?_⟩
  · intro hrem
    have hd := disconnect_of_last st sid session sids hac hsc hrem
    refine ⟨hd, ?_⟩
    rw [hd]
    exact dget_dpop_self _ _ hInv.2.1
  · intro hrem
    have hd := disconnect_of_remaining st sid session sids hac hsc hrem
    refine ⟨hd, ?_⟩
    rw [hd]
    exact dget_dset_self _ _ _

/-- C4 witness: closing one of `st100`'s two connections emits no
presence event and keeps the enrollment tracked; closing the last one
removes the entry and emits exactly one `offline` event. -/
theorem claim4_witness :
    disconnect stTwo "s2" = (stOne, []) ∧
    disconnect stOne "s1" = (⟨[], []⟩, [_broadcast_presence ctxA "st100" "offline"]) := by
  constructor
  · obtain ⟨sids, hsc, _, hne⟩ := claim4_disconnect stTwo "s2" sessionA (by decide) (by decide)
    have hval : some sids = some ["s1", "s2"] := by
      rw [← hsc]
      decide
    injection hval with hval
    subst hval
    exact (hne (by decide)).1
  · obtain ⟨sids, hsc, hempty, _⟩ := claim4_disconnect stOne "s1" sessionA (by decide) (by decide)
    have hval : some sids = some ["s1"] := by
      rw [← hsc]
      decide
    injection hval with hval
    subst hval
    exact (hempty (by decide)).1

/-- C8: a handshake whose credential decoding or roster-context
resolution fails (missing token, invalid token, unknown enrollment) is
refused with no successor state and no action: no connection record, no
room join, no presence mutation. -/
theorem claim8_handshake_failure_refused (collab : Collaborators) (st : State) (sid : Sid)
    (query_token : Option String) (auth : Option (Option String))
    (enrollment : Enrollment) (e : String) :
    (connect collab st sid none none = Except.error "unauthorized") ∧
    (decode_student_token collab.jwt_decode (extract_token query_token auth) =
        Except.error e →
      connect collab st sid query_token auth = Except.error "unauthorized") ∧
    (decode_student_token collab.jwt_decode (extract_token query_token auth) =
        Except.ok enrollment →
      collab.get_roster_context enrollment = Except.error e →
      connect collab st sid query_token auth = Except.error "unauthorized") :=
  ⟨connect_refused_of_decode_error collab st sid none none "Missing student token" rfl,
   fun hdec => connect_refused_of_decode_error collab st sid query_token auth e hdec,
   fun hdec hros =>
     connect_refused_of_roster_error collab st sid query_token auth enrollment e hdec hros⟩

/-- C8 witness: an invalid token and an unresolvable enrollment are both
refused. -/
theorem claim8_witness :
    connect collabA stOne "s9" (some "nope") none = Except.error "unauthorized" ∧
    connect collabA stOne "s9" (some "tokC") none = Except.error "unauthorized" :=
  ⟨(claim8_handshake_failure_refused collabA stOne "s9" (some "nope") none "st999"
      "Invalid student token").2.1 rfl,
   (claim8_handshake_failure_refused collabA stOne "s9" (some "tokC") none "st999"
      "unknown").2.2 rfl rfl⟩

end SocketServer
